import Mathlib

/-!
# Verification of the taxinomitis persistence and user-management layer

This file gives a shallow embedding, in Lean, of the two components of the
repository that the checked claims are about:

* the Auth0 user-management module `src/lib/auth0/users.ts`, whose code is in
  the repository (`getStudent`, `deleteStudent`, `deleteTeacher`,
  `resetStudentPassword`, `resetStudentsPassword`, `verifyTenant`,
  `verifyRole`), embedded directly from that source; remote Auth0 calls
  (`auth0requests.*`) are modelled as lookups in an explicit environment of
  user records, and the passphrase generator as an explicit argument;

* the database store `src/lib/db/store.ts` (`storeProject`, `getProject`,
  `getProjectsByUserId`, `addLabelToProject`, `removeLabelFromProject`,
  `countTrainingByLabel`, `getNumberProjectFields`, `storeTextTraining`,
  `deleteEntireProject`), whose implementation file is NOT part of the
  repository snapshot: only its test suite (`describe('DB store')` inside the
  staged sources) and the natural-language spec describe it.  Those
  definitions are therefore modelled from the spec, and, where the
  repository's own tests pin down behaviour more precisely than the spec's
  words (visibility of crowd-sourced projects, the value returned when an
  empty label is added), from the tests.

Timing behaviour of `resetStudentsPassword` is captured by having the
embedding emit an explicit trace of events: one `resetUser` event per
sequential password reset and one `pauseMs` event per `await pause(backoffMs)`
call, in program order.
-/

set_option linter.unusedVariables false

namespace Taxinomitis

/-! ## Auth0 user management (`src/lib/auth0/users.ts`) -/

/-- `app_metadata` of an Auth0 user record (`Objects.UserMetadata`). -/
structure UserMetadata where
  tenant : String
  role : String
  deriving DecidableEq, Repr

/-- An Auth0 user record (`Objects.User`), as the fields the module reads. -/
structure User where
  user_id : String
  username : String
  last_login : String
  app_metadata : UserMetadata
  deriving DecidableEq, Repr

/-- `Objects.Student`: the projection of a user returned by `getStudent`. -/
structure Student where
  id : String
  username : String
  last_login : String
  deriving DecidableEq, Repr

/-- `Objects.UserCreds`: credentials returned by the password-reset paths. -/
structure UserCreds where
  id : String
  username : String
  password : String
  deriving DecidableEq, Repr

/-- The error objects `verifyTenant` / `verifyRole` build: a JavaScript
`Error` decorated with `statusCode`, `error` and `errorCode` fields. -/
structure ErrInfo where
  message : String
  statusCode : Nat
  error : String
  errorCode : String
  deriving DecidableEq, Repr

/-- The state of the remote Auth0 service, modelling `auth0requests`:
the collection of user records the service holds. -/
structure Auth0Env where
  users : List User
  deriving DecidableEq, Repr

/-- `verifyTenant` (users.ts lines 15-24): a tenant mismatch throws a
404 / Not Found shaped error. -/
def verifyTenant (student : UserMetadata) (tenant : String) : Except ErrInfo Unit :=
  if student.tenant ≠ tenant then
    Except.error
      { message := "Userid with this tenant not found", statusCode := 404,
        error := "Not Found", errorCode := "inexistent_user" }
  else
    Except.ok ()

/-- `verifyRole` (users.ts lines 25-34): a role mismatch throws a
404 / Not Found shaped error. -/
def verifyRole (student : UserMetadata) (role : String) : Except ErrInfo Unit :=
  if student.role ≠ role then
    Except.error
      { message := "User with the specified userid and role not found", statusCode := 404,
        error := "Not Found", errorCode := "inexistent_user" }
  else
    Except.ok ()

/-- The remote service's lookup of a user record by id. -/
def findUser (env : Auth0Env) (userid : String) : Option User :=
  env.users.find? (fun u => u.user_id == userid)

/-- `auth0requests.getUser`, modelled: returns the record when the user
exists, and a remote 404 error otherwise (the claims only exercise the
existing-user path). -/
def getUserReq (env : Auth0Env) (userid : String) : Except ErrInfo User :=
  match findUser env userid with
  | some u => Except.ok u
  | none =>
      Except.error
        { message := "The user does not exist.", statusCode := 404,
          error := "Not Found", errorCode := "inexistent_user" }

/-- `getStudent` (users.ts lines 37-61): fetch the user, then verify its
tenant and then its `student` role, each failure surfacing as the
corresponding 404 error; the `catch` clause rethrows these errors
unchanged because they carry no `response.body`. -/
def getStudent (env : Auth0Env) (tenant userid : String) : Except ErrInfo Student := do
  let response ← getUserReq env userid
  let student := response.app_metadata
  let _ ← verifyTenant student tenant
  let _ ← verifyRole student "student"
  Except.ok { id := response.user_id, username := response.username,
              last_login := response.last_login }

/-- `auth0requests.deleteUser`, modelled: the service drops the record. -/
def deleteUserReq (env : Auth0Env) (userid : String) : Auth0Env :=
  { users := env.users.filter (fun u => u.user_id != userid) }

/-- `deleteStudent` (users.ts lines 145-153): verifies tenant and role via
`getStudent` before deleting. -/
def deleteStudent (env : Auth0Env) (tenant userid : String) : Except ErrInfo Auth0Env := do
  let _ ← getStudent env tenant userid
  Except.ok (deleteUserReq env userid)

/-- `deleteTeacher` (users.ts lines 155-158): deletes the user directly; the
source performs no tenant or role verification on this path. -/
def deleteTeacher (env : Auth0Env) (tenant userid : String) : Except ErrInfo Auth0Env :=
  Except.ok (deleteUserReq env userid)

/-- `resetStudentPassword` (users.ts lines 218-236): verifies tenant and role
via `getStudent`, then modifies the user's password and returns the new
credentials. `passphrases.generate()` is modelled by the explicit `password`
argument; the remote password update is not otherwise observable here. -/
def resetStudentPassword (env : Auth0Env) (tenant userid password : String) :
    Except ErrInfo UserCreds := do
  let _ ← getStudent env tenant userid
  let user ← getUserReq env userid
  Except.ok { id := user.user_id, username := user.username, password := password }

/-- The inner `resetPassword` helper (users.ts lines 161-178), used by the
bulk path with the password and token hoisted out of the loop. -/
def resetPassword (env : Auth0Env) (tenant userid password : String) :
    Except ErrInfo UserCreds := do
  let _ ← getStudent env tenant userid
  let user ← getUserReq env userid
  Except.ok { id := user.user_id, username := user.username, password := password }

/-- Observable events of the bulk reset loop: each sequential password reset
and each `await pause(backoffMs)` call, in program order. -/
inductive Auth0Event where
  | resetUser (userid : String)
  | pauseMs (ms : Nat)
  deriving DecidableEq, Repr

/-- `MAX_BACKOFF_MS` (users.ts line 188). -/
def MAX_BACKOFF_MS : Nat := 5000

/-- The `for (const userid of userids)` loop of `resetStudentsPassword`
(users.ts lines 194-206): reset the user, record the credentials, pause for
the current backoff, then grow the backoff by 50ms capping it at
`MAX_BACKOFF_MS`.  The loop is a sequential fold: each reset is awaited (and
its pause emitted) before the next begins. -/
def resetStudentsPasswordLoop (env : Auth0Env) (tenant password : String) :
    List String → Nat → Except ErrInfo (List UserCreds × List Auth0Event)
  | [], _ => Except.ok ([], [])
  | userid :: rest, backoffMs => do
    let creds ← resetPassword env tenant userid password
    let nextBackoff :=
      if backoffMs + 50 > MAX_BACKOFF_MS then MAX_BACKOFF_MS else backoffMs + 50
    let (moreCreds, moreEvents) ← resetStudentsPasswordLoop env tenant password rest nextBackoff
    Except.ok (creds :: moreCreds,
               Auth0Event.resetUser userid :: Auth0Event.pauseMs backoffMs :: moreEvents)

/-- `resetStudentsPassword` (users.ts lines 181-208): one passphrase is
generated before the loop (modelled by the `password` argument) and the loop
starts with `backoffMs = 5`. -/
def resetStudentsPassword (env : Auth0Env) (tenant : String) (userids : List String)
    (password : String) : Except ErrInfo (List UserCreds × List Auth0Event) :=
  resetStudentsPasswordLoop env tenant password userids 5

/-! ## The DB store (`src/lib/db/store.ts`, modelled)

The store's implementation file is not part of the repository snapshot; the
definitions below are modelled from the spec (sections 3, 4.1-4.4, 7) and
from the behaviour the repository's own test suite demands of them.  Labels
are persisted as a comma-joined string whose decode trims every entry and
drops empty ones; assuming comma-free labels (the only kind the tests and
spec exercise) this is modelled by normalising the label list on every
write (`normalizeLabels`), so a stored project's `labels` field is always
the decoded list the next read would observe. -/

/-- Whitespace-trimming of a string, modelling JavaScript's
`String.prototype.trim` used by the label decode; written over the character
list so it evaluates by `decide`. -/
def strTrim (s : String) : String :=
  { data := ((s.data.dropWhile Char.isWhitespace).reverse.dropWhile Char.isWhitespace).reverse }

/-- Modelled from the spec: the label decode (spec section 2, "normalizes
label strings (trims, rejects empty)") applied at write time — trim every
entry, drop the empty results. -/
def normalizeLabels (labels : List String) : List String :=
  (labels.map strTrim).filter (fun s => s != "")

/-- Modelled from the spec: a stored project record (spec section 3,
"Project"); the derived `numfields` count is not needed by any claim and is
omitted. -/
structure Project where
  id : String
  userid : String
  classid : String
  type : String
  name : String
  language : String
  labels : List String
  isCrowdSourced : Bool
  deriving DecidableEq, Repr

/-- `Objects.NumbersProjectFieldSummary`: a field as given to `storeProject`. -/
structure NumbersProjectFieldSummary where
  name : String
  type : String
  choices : List String
  deriving DecidableEq, Repr

/-- Modelled from the spec: a stored field record (spec section 3, "Field"):
ownership chain, name, type and choices. -/
structure NumbersProjectField where
  id : String
  userid : String
  classid : String
  projectid : String
  name : String
  type : String
  choices : List String
  deriving DecidableEq, Repr

/-- Modelled from the spec: a stored training example (spec section 3,
"Training Example"). -/
structure TextTraining where
  projectid : String
  textdata : String
  label : String
  deriving DecidableEq, Repr

/-- Modelled from the spec: the store's whole state — projects, field
records and training examples, plus the id-allocation counter. -/
structure DbStore where
  projects : List Project
  fields : List NumbersProjectField
  training : List TextTraining
  nextid : Nat
  deriving DecidableEq, Repr

/-- The store holding nothing. -/
def emptyStore : DbStore :=
  { projects := [], fields := [], training := [], nextid := 0 }

/-- Modelled from the spec: the Field Store's `addField` applied to each
entry of `storeProject`'s field list in order (spec section 4.2: order of
calls defines the order on reads; `choices` copied verbatim for
`multichoice`, forced empty for `number`). -/
def mkFieldRecords (userid classid projectid : String) :
    Nat → List NumbersProjectFieldSummary → List NumbersProjectField
  | _, [] => []
  | i, f :: rest =>
    { id := projectid ++ "-field-" ++ toString i, userid := userid, classid := classid,
      projectid := projectid, name := f.name, type := f.type,
      choices := if f.type == "number" then [] else f.choices }
      :: mkFieldRecords userid classid projectid (i + 1) rest

/-- Modelled from the spec: `storeProject` (spec section 4.1) — allocate a
fresh identifier, persist the metadata with an empty label list, and delegate
each field to the Field Store in the given order. -/
def storeProject (st : DbStore) (userid classid type name language : String)
    (fields : List NumbersProjectFieldSummary) (isCrowdSourced : Bool) :
    Project × DbStore :=
  let pid := "project-" ++ toString st.nextid
  let project : Project :=
    { id := pid, userid := userid, classid := classid, type := type, name := name,
      language := language, labels := [], isCrowdSourced := isCrowdSourced }
  (project,
   { projects := st.projects ++ [project],
     fields := st.fields ++ mkFieldRecords userid classid pid 0 fields,
     training := st.training,
     nextid := st.nextid + 1 })

/-- Modelled from the spec: `getProject` (spec section 4.1) — pure lookup,
absent is a valid result. -/
def getProject (st : DbStore) (id : String) : Option Project :=
  st.projects.find? (fun p => p.id == id)

/-- Modelled from the spec and the repository's test suite:
`getProjectsByUserId`.  The spec's words (section 4.1) mention only projects
owned by the user, but the in-repository test
`'should return projects the user has access to'` requires every
crowd-sourced project of the class to be returned for every user of the
class as well, so the filter keeps a project of the class when it is owned
by the user or crowd-sourced. -/
def getProjectsByUserId (st : DbStore) (userid classid : String) : List Project :=
  st.projects.filter (fun p => p.classid == classid && (p.userid == userid || p.isCrowdSourced))

/-- The spec's words for `getProjectsByUserId` taken literally (section 4.1:
"all projects owned by that user within that class"), kept for comparison
with the behaviour the test suite demands. -/
def getProjectsByUserIdSpecWords (st : DbStore) (userid classid : String) : List Project :=
  st.projects.filter (fun p => p.classid == classid && p.userid == userid)

/-- Modelled from the spec: the persistence of a project's label list
(`updateLabels`), which writes the list back in its comma-joined form; the
stored record therefore carries the normalised list every later read
decodes. Projects other than the addressed one are untouched. -/
def updateLabels (st : DbStore) (projectid : String) (labels : List String) : DbStore :=
  { st with
    projects := st.projects.map (fun p =>
      if p.id == projectid then { p with labels := normalizeLabels labels } else p) }

/-- Modelled from the spec and the repository's test suite:
`addLabelToProject` (spec section 4.3).  A missing project fails with
"Project not found".  Otherwise the label is appended unless already present
(exact match) and the resulting list is persisted and returned.  The
in-repository test `'should not store empty labels'` fixes the empty-label
behaviour: the raw appended list (containing the empty label) is returned,
while the persisted list — normalised on write — is unchanged. -/
def addLabelToProject (st : DbStore) (userid classid projectid label : String) :
    Except String (List String × DbStore) :=
  match getProject st projectid with
  | none => Except.error "Project not found"
  | some project =>
    let labels :=
      if project.labels.contains label then project.labels else project.labels ++ [label]
    Except.ok (labels, updateLabels st projectid labels)

/-- Modelled from the spec: `removeLabelFromProject` (spec section 4.3).  A
missing project fails with "Project not found"; an empty or absent label is
a no-op returning the current list; otherwise the label is removed
preserving the relative order of the remainder, and the result persisted.
Training examples are never touched. -/
def removeLabelFromProject (st : DbStore) (userid classid projectid label : String) :
    Except String (List String × DbStore) :=
  match getProject st projectid with
  | none => Except.error "Project not found"
  | some project =>
    if label == "" || !(project.labels.contains label) then
      Except.ok (project.labels, st)
    else
      let labels := project.labels.erase label
      Except.ok (labels, updateLabels st projectid labels)

/-- Modelled from the spec: `storeTextTraining` (spec section 4.4) — append
an example without validating its label against the project's current
labels. -/
def storeTextTraining (st : DbStore) (projectid textdata label : String) : DbStore :=
  { st with
    training := st.training ++ [{ projectid := projectid, textdata := textdata, label := label }] }

/-- The number of stored training examples of a project carrying exactly the
given label string. -/
def trainingCount (st : DbStore) (projectid label : String) : Nat :=
  (st.training.filter (fun t => t.projectid == projectid && t.label == label)).length

/-- Modelled from the spec: `countTrainingByLabel` (spec section 4.3) — for
each label currently in `project.labels`, in order, the count of matching
examples, keeping only entries with a positive count. -/
def countTrainingByLabel (st : DbStore) (project : Project) : List (String × Nat) :=
  (project.labels.map (fun label => (label, trainingCount st project.id label))).filter
    (fun e => e.2 != 0)

/-- Modelled from the spec: `getNumberProjectFields` (spec section 4.2) —
the project's field records in insertion order; an empty list, not an
error, when nothing matches. -/
def getNumberProjectFields (st : DbStore) (userid classid projectid : String) :
    List NumbersProjectField :=
  st.fields.filter (fun f =>
    f.userid == userid && f.classid == classid && f.projectid == projectid)

/-- Modelled from the spec: `deleteEntireProject` (spec section 4.1) —
remove the project record, all its field records and all its training
examples. -/
def deleteEntireProject (st : DbStore) (userid classid : String) (project : Project) : DbStore :=
  { projects := st.projects.filter (fun p => p.id != project.id),
    fields := st.fields.filter (fun f => f.projectid != project.id),
    training := st.training.filter (fun t => t.projectid != project.id),
    nextid := st.nextid }

/-- The invariant every stored (decoded) label list satisfies: each entry is
trim-fixed and non-empty (spec section 3: "labels ... unique ... non-empty"
after normalisation). -/
def LabelListOk (labels : List String) : Prop :=
  ∀ s ∈ labels, strTrim s = s ∧ s ≠ ""

instance (labels : List String) : Decidable (LabelListOk labels) :=
  List.decidableBAll _ labels

/-! ## Helper lemmas -/

/-- Bind on `Except` after a success. -/
theorem exceptBind_ok {α β ε : Type} (a : α) (f : α → Except ε β) :
    (Except.ok a >>= f) = f a := rfl

/-- Bind on `Except` after a failure. -/
theorem exceptBind_error {α β ε : Type} (e : ε) (f : α → Except ε β) :
    ((Except.error e : Except ε α) >>= f) = Except.error e := rfl

/-- Looking up the addressed project after `updateLabels` yields the project
with its labels replaced by the normalised written list. -/
theorem find_map_update (l : List Project) (pid : String) (nl : List String) :
    (l.map (fun p => if p.id == pid then { p with labels := nl } else p)).find?
        (fun p => p.id == pid) =
      (l.find? (fun p => p.id == pid)).map (fun p => { p with labels := nl }) := by
  induction l with
  | nil => rfl
  | cons a l ih =>
    simp only [List.map_cons, List.find?_cons]
    by_cases h : a.id = pid
    · have hb : (a.id == pid) = true := by simpa using h
      simp [hb]
    · have hb : (a.id == pid) = false := by simpa using h
      have hfa : (if (a.id == pid) = true then ({ a with labels := nl } : Project) else a) = a := by
        simp [hb]
      rw [hfa, hb]
      exact ih

/-- `getProject` after `updateLabels` at the addressed project id. -/
theorem getProject_updateLabels (st : DbStore) (pid : String) (labels : List String) :
    getProject (updateLabels st pid labels) pid =
      (getProject st pid).map (fun p => { p with labels := normalizeLabels labels }) := by
  simpa [getProject, updateLabels] using
    find_map_update st.projects pid (normalizeLabels labels)

/-- Normalisation fixes a list whose entries are already trim-fixed and
non-empty. -/
theorem normalizeLabels_eq_self (labels : List String) (h : LabelListOk labels) :
    normalizeLabels labels = labels := by
  induction labels with
  | nil => rfl
  | cons a l ih =>
    have ha := h a (by simp)
    have hl := ih (fun s hs => h s (by simp [hs]))
    simp only [normalizeLabels, List.map_cons, List.filter_cons] at hl ⊢
    have hne : (a != "") = true := by simpa using ha.2
    simp [ha.1, hne, hl]

/-- `updateLabels` only rewrites project records. -/
theorem updateLabels_training (st : DbStore) (pid : String) (labels : List String) :
    (updateLabels st pid labels).training = st.training := rfl

/-- A label in a list satisfying the stored-label invariant is itself
trim-fixed and non-empty. -/
theorem labelListOk_mem (labels : List String) (h : LabelListOk labels) (s : String)
    (hs : s ∈ labels) : strTrim s = s ∧ s ≠ "" := h s hs

/-! ## C1: what `getProjectsByUserId` returns -/

/-- A store holding one crowd-sourced project of class `classC` owned by
`userX`. -/
def c1Store : DbStore :=
  (storeProject emptyStore "userX" "classC" "text" "projname" "en" [] true).2

/-- C1 counterexample: `getProjectsByUserId` is NOT restricted to the
projects owned by the requesting user.  A crowd-sourced project stored under
`userX` in class `classC` appears in `userY`'s result for that class, as the
repository's test `'should return projects the user has access to'`
requires, so the result is not "exactly the projects owned by" the user. -/
theorem c1_crowdsourced_visible :
    (getProjectsByUserId c1Store "userY" "classC").map Project.userid = ["userX"] ∧
      "userX" ≠ "userY" := by
  constructor
  · rfl
  · decide

/-- C1 (amended): `getProjectsByUserId userid classid` returns exactly the
stored projects of class `classid` that are owned by `userid` or are
crowd-sourced; a non-crowd-sourced project of a different user never
appears, over any store state (hence over any sequence of `storeProject`
calls). -/
theorem c1_getProjectsByUserId_spec (st : DbStore) (userid classid : String) (p : Project) :
    p ∈ getProjectsByUserId st userid classid ↔
      p ∈ st.projects ∧ p.classid = classid ∧ (p.userid = userid ∨ p.isCrowdSourced = true) := by
  simp [getProjectsByUserId, List.mem_filter]

/-! ## C3: label mutations on a missing project -/

/-- C3: against a project id with no stored project, both label mutations
fail with an error whose message is exactly "Project not found" — an
`Except.error`, distinguishable by the caller from any successful
`Except.ok` no-op return. -/
theorem c3_not_found (st : DbStore) (userid classid projectid label : String)
    (h : getProject st projectid = none) :
    addLabelToProject st userid classid projectid label = Except.error "Project not found" ∧
      removeLabelFromProject st userid classid projectid label =
        Except.error "Project not found" := by
  constructor
  · simp [addLabelToProject, h]
  · simp [removeLabelFromProject, h]

/-- C3 witness: the empty store holds no project `nonexistent`, and both
mutations against it fail with "Project not found". -/
theorem c3_not_found_witness :
    getProject emptyStore "nonexistent" = none ∧
      (addLabelToProject emptyStore "u" "c" "nonexistent" "MYNEWLABEL" =
        Except.error "Project not found" ∧
       removeLabelFromProject emptyStore "u" "c" "nonexistent" "MYOLDLABEL" =
        Except.error "Project not found") := by
  exact ⟨rfl, c3_not_found emptyStore "u" "c" "nonexistent" "MYNEWLABEL" rfl⟩

/-! ## C4: the key set of `countTrainingByLabel` -/

/-- C4: the labels appearing in `countTrainingByLabel st project` are
exactly those both currently in `project.labels` and carrying at least one
stored training example with that exact label string.  In particular a label
no longer in `project.labels` never appears, however many orphaned examples
are still stored under it, and a current label with zero matching examples
never appears. -/
theorem c4_countTrainingByLabel_keys (st : DbStore) (project : Project) (label : String) :
    label ∈ (countTrainingByLabel st project).map Prod.fst ↔
      label ∈ project.labels ∧ trainingCount st project.id label ≠ 0 := by
  simp only [countTrainingByLabel, List.mem_map, List.mem_filter]
  constructor
  · rintro ⟨⟨l, cnt⟩, ⟨⟨x, hx, hxe⟩, hpos⟩, hfst⟩
    cases hxe
    cases hfst
    refine ⟨hx, ?_⟩
    simpa using hpos
  · rintro ⟨hmem, hpos⟩
    refine ⟨(label, trainingCount st project.id label), ⟨⟨label, hmem, rfl⟩, ?_⟩, rfl⟩
    simpa using hpos

/-! ## C2: adding an empty (after trimming) label -/

/-- `normalizeLabels` distributes over append. -/
theorem normalizeLabels_append (a b : List String) :
    normalizeLabels (a ++ b) = normalizeLabels a ++ normalizeLabels b := by
  simp [normalizeLabels, List.filter_append]

/-- A label whose trimmed form is empty is never an entry of a stored
(normalised) label list. -/
theorem trimEmpty_not_mem (labels : List String) (h : LabelListOk labels) (label : String)
    (hlabel : strTrim label = "") : label ∉ labels := by
  intro hmem
  obtain ⟨h1, h2⟩ := h label hmem
  rw [h1] at hlabel
  exact h2 hlabel

/-- A store holding one freshly created project with no labels. -/
def c2Store : DbStore :=
  (storeProject emptyStore "user1" "class1" "text" "proj" "en" [] false).2

/-- The project `c2Store` holds. -/
def c2Project : Project :=
  (storeProject emptyStore "user1" "class1" "text" "proj" "en" [] false).1

/-- C2 counterexample: on a project whose current label list is `[]`, adding
the empty label returns the list `[""]` — the prior list with the empty
label appended — not the current list unchanged, exactly as the repository's
test `'should not store empty labels'` asserts (`newlabels` equals `[ '' ]`
while the stored project keeps `[]`). -/
theorem c2_empty_label_returned :
    c2Project.labels = [] ∧
      (addLabelToProject c2Store "user1" "class1" c2Project.id "").map Prod.fst =
        Except.ok [""] ∧
      ([""] : List String) ≠ [] := by
  refine ⟨rfl, rfl, by decide⟩

/-- C2 (amended): for an existing project and a label whose trimmed form is
empty, `addLabelToProject` raises no error and performs no persistent
change — the stored label list read back afterwards equals the prior list,
and training data is untouched — but the list it returns is the prior list
with the raw label appended (the label cannot already be present), not the
prior list itself. -/
theorem c2_add_empty_label (st : DbStore) (userid classid projectid label : String)
    (p : Project) (hp : getProject st projectid = some p) (hinv : LabelListOk p.labels)
    (hlabel : strTrim label = "") :
    addLabelToProject st userid classid projectid label =
      Except.ok (p.labels ++ [label], updateLabels st projectid (p.labels ++ [label])) ∧
      (getProject (updateLabels st projectid (p.labels ++ [label])) projectid).map
          Project.labels = some p.labels ∧
      (updateLabels st projectid (p.labels ++ [label])).training = st.training := by
  have hnot : label ∉ p.labels := trimEmpty_not_mem p.labels hinv label hlabel
  have hcont : p.labels.contains label = false := by simpa using hnot
  refine ⟨?_, ?_, rfl⟩
  · simp [addLabelToProject, hp, hnot]
  · rw [getProject_updateLabels, hp]
    have hdrop : normalizeLabels (p.labels ++ [label]) = p.labels := by
      rw [normalizeLabels_append, normalizeLabels_eq_self p.labels hinv]
      simp [normalizeLabels, hlabel]
    simp [hdrop]

/-- C2 witness: the amended statement evaluated on the fresh project of
`c2Store` and the literally empty label. -/
theorem c2_add_empty_label_witness :
    getProject c2Store c2Project.id = some c2Project ∧
      LabelListOk c2Project.labels ∧
      strTrim "" = "" ∧
      (addLabelToProject c2Store "user1" "class1" c2Project.id "" =
        Except.ok (c2Project.labels ++ [""],
          updateLabels c2Store c2Project.id (c2Project.labels ++ [""])) ∧
        (getProject (updateLabels c2Store c2Project.id (c2Project.labels ++ [""]))
            c2Project.id).map Project.labels = some c2Project.labels ∧
        (updateLabels c2Store c2Project.id (c2Project.labels ++ [""])).training =
          c2Store.training) :=
  ⟨rfl, by decide, rfl,
    c2_add_empty_label c2Store "user1" "class1" c2Project.id "" c2Project rfl (by decide) rfl⟩

/-! ## C5: removing a label -/

/-- A project with four labels, together with one training example stored
under one of them. -/
def c5Project : Project :=
  { id := "project-9", userid := "user5", classid := "class5", type := "text", name := "p5",
    language := "en", labels := ["america", "belgium", "canada", "denmark"],
    isCrowdSourced := false }

/-- The store holding `c5Project` and a training example under "belgium". -/
def c5Store : DbStore :=
  { projects := [c5Project], fields := [],
    training := [{ projectid := "project-9", textdata := "brussels", label := "belgium" }],
    nextid := 10 }

/-- C5: on an existing project, removing an empty or absent label returns
the prior list with the store unchanged (no-op, no error); removing a
present label returns and persists the prior list with exactly that one
element removed (the result is a sublist — relative order preserved — one
element shorter), and the stored training examples are never mutated or
deleted. -/
theorem c5_removeLabelFromProject (st : DbStore) (userid classid projectid label : String)
    (p : Project) (hp : getProject st projectid = some p) (hinv : LabelListOk p.labels) :
    ((label = "" ∨ label ∉ p.labels) →
      removeLabelFromProject st userid classid projectid label = Except.ok (p.labels, st)) ∧
      (label ∈ p.labels →
        removeLabelFromProject st userid classid projectid label =
          Except.ok (p.labels.erase label, updateLabels st projectid (p.labels.erase label)) ∧
        (getProject (updateLabels st projectid (p.labels.erase label)) projectid).map
            Project.labels = some (p.labels.erase label) ∧
        List.Sublist (p.labels.erase label) p.labels ∧
        (p.labels.erase label).length + 1 = p.labels.length ∧
        (updateLabels st projectid (p.labels.erase label)).training = st.training) := by
  constructor
  · rintro (rfl | hno)
    · simp [removeLabelFromProject, hp]
    · simp [removeLabelFromProject, hp, hno]
  · intro hmem
    have hne : label ≠ "" := (hinv label hmem).2
    have hbeq : (label == "") = false := by simpa using hne
    have hcont : p.labels.contains label = true := List.elem_eq_true_of_mem hmem
    have hinv' : LabelListOk (p.labels.erase label) := fun s hs =>
      hinv s (List.mem_of_mem_erase hs)
    refine ⟨?_, ?_, List.erase_sublist label p.labels, ?_, rfl⟩
    · simp [removeLabelFromProject, hp, hne, hmem]
    · rw [getProject_updateLabels, hp]
      simp [normalizeLabels_eq_self _ hinv']
    · have hlen := List.length_erase_of_mem hmem
      have hpos : 0 < p.labels.length := List.length_pos_of_mem hmem
      omega

/-- C5 witness: the statement evaluated on `c5Store` and the label
"belgium" (present), covering both the no-op implication (vacuously
evaluable) and the removal branch. -/
theorem c5_removeLabelFromProject_witness :
    getProject c5Store c5Project.id = some c5Project ∧
      LabelListOk c5Project.labels ∧
      (((("belgium" : String) = "" ∨ "belgium" ∉ c5Project.labels) →
        removeLabelFromProject c5Store "user5" "class5" c5Project.id "belgium" =
          Except.ok (c5Project.labels, c5Store)) ∧
        ("belgium" ∈ c5Project.labels →
          removeLabelFromProject c5Store "user5" "class5" c5Project.id "belgium" =
            Except.ok (c5Project.labels.erase "belgium",
              updateLabels c5Store c5Project.id (c5Project.labels.erase "belgium")) ∧
          (getProject (updateLabels c5Store c5Project.id (c5Project.labels.erase "belgium"))
              c5Project.id).map Project.labels =
            some (c5Project.labels.erase "belgium") ∧
          List.Sublist (c5Project.labels.erase "belgium") c5Project.labels ∧
          (c5Project.labels.erase "belgium").length + 1 = c5Project.labels.length ∧
          (updateLabels c5Store c5Project.id
              (c5Project.labels.erase "belgium")).training = c5Store.training)) :=
  ⟨rfl, by decide,
    c5_removeLabelFromProject c5Store "user5" "class5" c5Project.id "belgium" c5Project rfl
      (by decide)⟩

/-! ## C6: idempotence of adding a duplicate label -/

/-- C6: on an existing project, adding a label already present in the label
list (case-sensitive exact match) returns the current list unchanged and
persists the same list, and doing it a second time returns and persists
exactly the same again — adding twice equals adding once, both in the
returned and in the stored list. -/
theorem c6_addLabelToProject_idempotent (st : DbStore) (userid classid projectid label : String)
    (p : Project) (hp : getProject st projectid = some p) (hinv : LabelListOk p.labels)
    (hmem : label ∈ p.labels) :
    addLabelToProject st userid classid projectid label =
      Except.ok (p.labels, updateLabels st projectid p.labels) ∧
      (getProject (updateLabels st projectid p.labels) projectid).map Project.labels =
        some p.labels ∧
      addLabelToProject (updateLabels st projectid p.labels) userid classid projectid label =
        Except.ok (p.labels,
          updateLabels (updateLabels st projectid p.labels) projectid p.labels) ∧
      (getProject (updateLabels (updateLabels st projectid p.labels) projectid p.labels)
          projectid).map Project.labels = some p.labels := by
  have hnorm : normalizeLabels p.labels = p.labels := normalizeLabels_eq_self p.labels hinv
  have hst1 : getProject (updateLabels st projectid p.labels) projectid = some p := by
    rw [getProject_updateLabels, hp]
    simp [hnorm]
  refine ⟨?_, ?_, ?_, ?_⟩
  · simp [addLabelToProject, hp, hmem]
  · rw [hst1]
    rfl
  · simp [addLabelToProject, hst1, hmem]
  · rw [getProject_updateLabels, hst1]
    simp [hnorm]

/-- C6 witness: the statement evaluated on `c5Store` adding the
already-present label "canada". -/
theorem c6_addLabelToProject_idempotent_witness :
    getProject c5Store c5Project.id = some c5Project ∧
      LabelListOk c5Project.labels ∧
      "canada" ∈ c5Project.labels ∧
      (addLabelToProject c5Store "user5" "class5" c5Project.id "canada" =
        Except.ok (c5Project.labels, updateLabels c5Store c5Project.id c5Project.labels) ∧
        (getProject (updateLabels c5Store c5Project.id c5Project.labels) c5Project.id).map
            Project.labels = some c5Project.labels ∧
        addLabelToProject (updateLabels c5Store c5Project.id c5Project.labels) "user5" "class5"
            c5Project.id "canada" =
          Except.ok (c5Project.labels,
            updateLabels (updateLabels c5Store c5Project.id c5Project.labels) c5Project.id
              c5Project.labels) ∧
        (getProject
            (updateLabels (updateLabels c5Store c5Project.id c5Project.labels) c5Project.id
              c5Project.labels) c5Project.id).map Project.labels = some c5Project.labels) :=
  ⟨rfl, by decide, by decide,
    c6_addLabelToProject_idempotent c5Store "user5" "class5" c5Project.id "canada" c5Project rfl
      (by decide) (by decide)⟩

/-! ## C7: field order and reads after deletion -/

/-- The field records created for a field list keep its names in order. -/
theorem mkFieldRecords_map_name (userid classid pid : String) (i : Nat)
    (fs : List NumbersProjectFieldSummary) :
    (mkFieldRecords userid classid pid i fs).map NumbersProjectField.name =
      fs.map NumbersProjectFieldSummary.name := by
  induction fs generalizing i with
  | nil => rfl
  | cons f rest ih => simp [mkFieldRecords, ih]

/-- The field records created for a field list keep its types in order. -/
theorem mkFieldRecords_map_type (userid classid pid : String) (i : Nat)
    (fs : List NumbersProjectFieldSummary) :
    (mkFieldRecords userid classid pid i fs).map NumbersProjectField.type =
      fs.map NumbersProjectFieldSummary.type := by
  induction fs generalizing i with
  | nil => rfl
  | cons f rest ih => simp [mkFieldRecords, ih]

/-- Every record created for a project passes that project's field filter. -/
theorem mkFieldRecords_filter_self (userid classid pid : String) (i : Nat)
    (fs : List NumbersProjectFieldSummary) :
    (mkFieldRecords userid classid pid i fs).filter
        (fun f => f.userid == userid && f.classid == classid && f.projectid == pid) =
      mkFieldRecords userid classid pid i fs := by
  induction fs generalizing i with
  | nil => rfl
  | cons f rest ih => simp [mkFieldRecords, ih]

/-- Field records of other projects never pass the filter. -/
theorem filter_fields_of_fresh (l : List NumbersProjectField) (userid classid pid : String)
    (h : ∀ f ∈ l, f.projectid ≠ pid) :
    l.filter (fun f => f.userid == userid && f.classid == classid && f.projectid == pid) = [] := by
  rw [List.filter_eq_nil_iff]
  intro f hf
  simp [h f hf]

/-- After `deleteEntireProject`, no field record of the deleted project
remains, so its field reads yield the empty list, not an error. -/
theorem getNumberProjectFields_delete (st : DbStore) (ua ca ub cb : String) (proj : Project) :
    getNumberProjectFields (deleteEntireProject st ua ca proj) ub cb proj.id = [] := by
  rw [getNumberProjectFields, List.filter_eq_nil_iff]
  intro f hf
  have hne : (f.projectid != proj.id) = true := (List.mem_filter.mp hf).2
  simp at hne
  simp [hne]

/-- C7: `storeProject` delegates its field list in order, and
`getNumberProjectFields` reproduces exactly that insertion order (here: the
name and type sequences equal the input sequences), provided the freshly
allocated project id was not already carrying field records; once the owning
project has been deleted the read returns `[]` rather than an error. -/
theorem c7_field_order (st : DbStore) (userid classid type name language : String)
    (fields : List NumbersProjectFieldSummary) (crowd : Bool)
    (hfresh : ∀ f ∈ st.fields,
      f.projectid ≠ (storeProject st userid classid type name language fields crowd).1.id) :
    (getNumberProjectFields (storeProject st userid classid type name language fields crowd).2
        userid classid
        (storeProject st userid classid type name language fields crowd).1.id).map
        NumbersProjectField.name = fields.map NumbersProjectFieldSummary.name ∧
      (getNumberProjectFields (storeProject st userid classid type name language fields crowd).2
          userid classid
          (storeProject st userid classid type name language fields crowd).1.id).map
          NumbersProjectField.type = fields.map NumbersProjectFieldSummary.type ∧
      getNumberProjectFields
          (deleteEntireProject
            (storeProject st userid classid type name language fields crowd).2 userid classid
            (storeProject st userid classid type name language fields crowd).1)
          userid classid
          (storeProject st userid classid type name language fields crowd).1.id = [] := by
  have hid : (storeProject st userid classid type name language fields crowd).1.id =
      "project-" ++ toString st.nextid := rfl
  have hflt : getNumberProjectFields
      (storeProject st userid classid type name language fields crowd).2 userid classid
      (storeProject st userid classid type name language fields crowd).1.id =
      mkFieldRecords userid classid ("project-" ++ toString st.nextid) 0 fields := by
    show (st.fields ++ mkFieldRecords userid classid ("project-" ++ toString st.nextid) 0
        fields).filter _ = _
    simp only [hid]
    rw [List.filter_append,
      filter_fields_of_fresh st.fields userid classid _ (by simpa only [hid] using hfresh),
      mkFieldRecords_filter_self]
    rfl
  refine ⟨?_, ?_, getNumberProjectFields_delete _ _ _ _ _ _⟩
  · rw [hflt, mkFieldRecords_map_name]
  · rw [hflt, mkFieldRecords_map_type]

/-- The field list used by the C7 witness: a number field and a multichoice
field and another number field, mirroring the repository's field tests. -/
def c7Fields : List NumbersProjectFieldSummary :=
  [{ name := "first", type := "number", choices := [] },
   { name := "second", type := "multichoice", choices := ["male", "female"] },
   { name := "third", type := "number", choices := [] }]

/-- C7 witness: the statement evaluated on the empty store and `c7Fields`. -/
theorem c7_field_order_witness :
    (∀ f ∈ emptyStore.fields,
      f.projectid ≠ (storeProject emptyStore "u7" "c7" "numbers" "p7" "en" c7Fields false).1.id) ∧
      ((getNumberProjectFields
          (storeProject emptyStore "u7" "c7" "numbers" "p7" "en" c7Fields false).2 "u7" "c7"
          (storeProject emptyStore "u7" "c7" "numbers" "p7" "en" c7Fields false).1.id).map
          NumbersProjectField.name = c7Fields.map NumbersProjectFieldSummary.name ∧
        (getNumberProjectFields
            (storeProject emptyStore "u7" "c7" "numbers" "p7" "en" c7Fields false).2 "u7" "c7"
            (storeProject emptyStore "u7" "c7" "numbers" "p7" "en" c7Fields false).1.id).map
            NumbersProjectField.type = c7Fields.map NumbersProjectFieldSummary.type ∧
        getNumberProjectFields
            (deleteEntireProject
              (storeProject emptyStore "u7" "c7" "numbers" "p7" "en" c7Fields false).2 "u7" "c7"
              (storeProject emptyStore "u7" "c7" "numbers" "p7" "en" c7Fields false).1)
            "u7" "c7"
            (storeProject emptyStore "u7" "c7" "numbers" "p7" "en" c7Fields false).1.id = []) :=
  ⟨by decide,
    c7_field_order emptyStore "u7" "c7" "numbers" "p7" "en" c7Fields false (by decide)⟩

/-! ## C8: tenant mismatch on the identity collaborator -/

/-- The error `verifyTenant` raises on a tenant mismatch. -/
def invalidTenantError : ErrInfo :=
  { message := "Userid with this tenant not found", statusCode := 404,
    error := "Not Found", errorCode := "inexistent_user" }

/-- An Auth0 environment holding one teacher whose stored tenant is
`tenantA`. -/
def c8TeacherEnv : Auth0Env :=
  { users := [{ user_id := "teacher1", username := "teach", last_login := "2019",
                app_metadata := { tenant := "tenantA", role := "supervisor" } }] }

/-- C8 counterexample: `deleteTeacher` performs no tenant verification.
Requested under `tenantB`, the teacher stored under `tenantA` is deleted and
the call succeeds instead of failing with a 404 / Not Found error. -/
theorem c8_deleteTeacher_no_tenant_check :
    (findUser c8TeacherEnv "teacher1").map (fun u => u.app_metadata.tenant) = some "tenantA" ∧
      deleteTeacher c8TeacherEnv "tenantB" "teacher1" = Except.ok { users := [] } ∧
      ("tenantA" : String) ≠ "tenantB" := by
  refine ⟨rfl, rfl, by decide⟩

/-- C8 (amended): for a user whose stored tenant differs from the requested
tenant, `getStudent`, `deleteStudent` and `resetStudentPassword` all fail
with the not-found-shaped error (`statusCode` 404, `error` "Not Found");
`deleteTeacher`, however, performs no tenant check at all and succeeds,
deleting the user. -/
theorem c8_tenant_mismatch (env : Auth0Env) (tenant userid password : String) (u : User)
    (hfind : findUser env userid = some u)
    (htenant : u.app_metadata.tenant ≠ tenant) :
    getStudent env tenant userid = Except.error invalidTenantError ∧
      deleteStudent env tenant userid = Except.error invalidTenantError ∧
      resetStudentPassword env tenant userid password = Except.error invalidTenantError ∧
      invalidTenantError.statusCode = 404 ∧
      invalidTenantError.error = "Not Found" ∧
      deleteTeacher env tenant userid = Except.ok (deleteUserReq env userid) := by
  have hstudent : getStudent env tenant userid = Except.error invalidTenantError := by
    simp [getStudent, getUserReq, hfind, verifyTenant, htenant, invalidTenantError,
      exceptBind_ok, exceptBind_error]
  refine ⟨hstudent, ?_, ?_, rfl, rfl, rfl⟩
  · simp [deleteStudent, hstudent, exceptBind_error]
  · simp [resetStudentPassword, hstudent, exceptBind_error]

/-- An Auth0 environment holding one student whose stored tenant is
`tenantA`. -/
def c8StudentEnv : Auth0Env :=
  { users := [{ user_id := "student1", username := "stud", last_login := "2019",
                app_metadata := { tenant := "tenantA", role := "student" } }] }

/-- C8 witness: the amended statement evaluated on a student stored under
`tenantA` and requested under `tenantB`. -/
theorem c8_tenant_mismatch_witness :
    findUser c8StudentEnv "student1" =
      some { user_id := "student1", username := "stud", last_login := "2019",
             app_metadata := { tenant := "tenantA", role := "student" } } ∧
      ("tenantA" : String) ≠ "tenantB" ∧
      (getStudent c8StudentEnv "tenantB" "student1" = Except.error invalidTenantError ∧
        deleteStudent c8StudentEnv "tenantB" "student1" = Except.error invalidTenantError ∧
        resetStudentPassword c8StudentEnv "tenantB" "student1" "newpw" =
          Except.error invalidTenantError ∧
        invalidTenantError.statusCode = 404 ∧
        invalidTenantError.error = "Not Found" ∧
        deleteTeacher c8StudentEnv "tenantB" "student1" =
          Except.ok (deleteUserReq c8StudentEnv "student1")) :=
  ⟨rfl, by decide,
    c8_tenant_mismatch c8StudentEnv "tenantB" "student1" "newpw"
      { user_id := "student1", username := "stud", last_login := "2019",
        app_metadata := { tenant := "tenantA", role := "student" } } rfl (by decide)⟩

/-! ## C9: sequential throttling of the bulk password reset -/

/-- The spec's throttle schedule: the events of a strictly sequential run
where the reset of the k-th user (counting from `k`) is followed by a pause
of `min (5 + 50 * k) MAX_BACKOFF_MS` milliseconds before the next reset —
the delay starts at 5ms, grows by 50ms after each call and is capped at
5000ms. -/
def specThrottleTrace (userids : List String) (k : Nat) : List Auth0Event :=
  match userids with
  | [] => []
  | u :: rest =>
      Auth0Event.resetUser u ::
        Auth0Event.pauseMs (min (5 + 50 * k) MAX_BACKOFF_MS) :: specThrottleTrace rest (k + 1)

/-- The loop's event trace, from any backoff value on the closed-form
schedule, follows the spec's throttle schedule. -/
theorem resetLoop_trace (env : Auth0Env) (tenant password : String) (userids : List String)
    (k b : Nat) (hb : b = min (5 + 50 * k) MAX_BACKOFF_MS) (creds : List UserCreds)
    (evs : List Auth0Event)
    (h : resetStudentsPasswordLoop env tenant password userids b = Except.ok (creds, evs)) :
    evs = specThrottleTrace userids k := by
  induction userids generalizing k b creds evs with
  | nil =>
    simp only [resetStudentsPasswordLoop, Except.ok.injEq, Prod.mk.injEq] at h
    obtain ⟨h1, h2⟩ := h
    subst h2
    rfl
  | cons u rest ih =>
    cases hr : resetPassword env tenant u password with
    | error e => simp [resetStudentsPasswordLoop, hr, exceptBind_error] at h
    | ok c =>
      cases hrec : resetStudentsPasswordLoop env tenant password rest
          (if b + 50 > MAX_BACKOFF_MS then MAX_BACKOFF_MS else b + 50) with
      | error e => simp [resetStudentsPasswordLoop, hr, hrec, exceptBind_ok,
          exceptBind_error] at h
      | ok pr =>
        have hb' : (if b + 50 > MAX_BACKOFF_MS then MAX_BACKOFF_MS else b + 50) =
            min (5 + 50 * (k + 1)) MAX_BACKOFF_MS := by
          subst hb
          simp only [MAX_BACKOFF_MS]
          split_ifs <;> omega
        have htail := ih (k + 1) _ hb' pr.1 pr.2 hrec
        simp only [resetStudentsPasswordLoop, hr, hrec, exceptBind_ok, Except.ok.injEq,
          Prod.mk.injEq] at h
        obtain ⟨h1, h2⟩ := h
        subst h2
        simp [specThrottleTrace, htail, hb]

/-- Every pause of the spec's throttle schedule is at most the cap. -/
theorem specThrottleTrace_pause_le (userids : List String) (k d : Nat)
    (h : Auth0Event.pauseMs d ∈ specThrottleTrace userids k) : d ≤ MAX_BACKOFF_MS := by
  induction userids generalizing k with
  | nil => simp [specThrottleTrace] at h
  | cons u rest ih =>
    simp only [specThrottleTrace, List.mem_cons] at h
    rcases h with h | h | h
    · cases h
    · cases h
      exact min_le_right _ _
    · exact ih (k + 1) h

/-- C9: a successful `resetStudentsPassword` run produces exactly the
strictly sequential event trace of the spec's throttle schedule — each
user's reset is followed by its pause before the next user's reset begins
(no two resets in flight), the pause after the k-th reset is
`min (5 + 50k) 5000` milliseconds (so the delay starts at 5ms, grows by
50ms after each call), and no pause ever exceeds the 5000ms cap. -/
theorem c9_sequential_backoff (env : Auth0Env) (tenant password : String)
    (userids : List String) (creds : List UserCreds) (evs : List Auth0Event)
    (h : resetStudentsPassword env tenant userids password = Except.ok (creds, evs)) :
    evs = specThrottleTrace userids 0 ∧
      (∀ d, Auth0Event.pauseMs d ∈ evs → d ≤ MAX_BACKOFF_MS) := by
  have htr := resetLoop_trace env tenant password userids 0 5 (by decide) creds evs h
  exact ⟨htr, fun d hd => specThrottleTrace_pause_le userids 0 d (htr ▸ hd)⟩

/-- An Auth0 environment with two students of tenant `tenantT`. -/
def c9Env : Auth0Env :=
  { users := [{ user_id := "u1", username := "alice", last_login := "2019",
                app_metadata := { tenant := "tenantT", role := "student" } },
              { user_id := "u2", username := "bob", last_login := "2019",
                app_metadata := { tenant := "tenantT", role := "student" } }] }

/-- C9 witness: resetting two students yields the trace
reset u1, pause 5ms, reset u2, pause 55ms, matching the schedule. -/
theorem c9_sequential_backoff_witness :
    resetStudentsPassword c9Env "tenantT" ["u1", "u2"] "pw" =
      Except.ok ([{ id := "u1", username := "alice", password := "pw" },
                  { id := "u2", username := "bob", password := "pw" }],
                 [Auth0Event.resetUser "u1", Auth0Event.pauseMs 5,
                  Auth0Event.resetUser "u2", Auth0Event.pauseMs 55]) ∧
      ([Auth0Event.resetUser "u1", Auth0Event.pauseMs 5,
        Auth0Event.resetUser "u2", Auth0Event.pauseMs 55] =
          specThrottleTrace ["u1", "u2"] 0 ∧
        (∀ d, Auth0Event.pauseMs d ∈
            [Auth0Event.resetUser "u1", Auth0Event.pauseMs 5,
             Auth0Event.resetUser "u2", Auth0Event.pauseMs 55] → d ≤ MAX_BACKOFF_MS)) :=
  ⟨rfl, c9_sequential_backoff c9Env "tenantT" "pw" ["u1", "u2"] _ _ rfl⟩

/-! ## C10: one passphrase for the whole batch -/

/-- Every credential record the loop returns carries the hoisted password. -/
theorem resetLoop_password (env : Auth0Env) (tenant password : String)
    (userids : List String) (b : Nat) (creds : List UserCreds) (evs : List Auth0Event)
    (h : resetStudentsPasswordLoop env tenant password userids b = Except.ok (creds, evs)) :
    ∀ c ∈ creds, c.password = password := by
  induction userids generalizing b creds evs with
  | nil =>
    simp only [resetStudentsPasswordLoop, Except.ok.injEq, Prod.mk.injEq] at h
    obtain ⟨h1, h2⟩ := h
    subst h1
    intro c hc
    cases hc
  | cons u rest ih =>
    cases hr : resetPassword env tenant u password with
    | error e => simp [resetStudentsPasswordLoop, hr, exceptBind_error] at h
    | ok c =>
      cases hrec : resetStudentsPasswordLoop env tenant password rest
          (if b + 50 > MAX_BACKOFF_MS then MAX_BACKOFF_MS else b + 50) with
      | error e => simp [resetStudentsPasswordLoop, hr, hrec, exceptBind_ok,
          exceptBind_error] at h
      | ok pr =>
        have hc : c.password = password := by
          cases hgs : getStudent env tenant u with
          | error e2 => simp [resetPassword, hgs, exceptBind_error] at hr
          | ok s =>
            cases hu : getUserReq env u with
            | error e2 =>
              simp [resetPassword, hgs, hu, exceptBind_ok, exceptBind_error] at hr
            | ok usr =>
              simp only [resetPassword, hgs, hu, exceptBind_ok, Except.ok.injEq] at hr
              rw [← hr]
        have htail := ih _ pr.1 pr.2 hrec
        simp only [resetStudentsPasswordLoop, hr, hrec, exceptBind_ok, Except.ok.injEq,
          Prod.mk.injEq] at h
        obtain ⟨h1, h2⟩ := h
        subst h1
        intro cr hcr
        rcases List.mem_cons.mp hcr with rfl | hcr'
        · exact hc
        · exact htail cr hcr'

/-- C10: in one `resetStudentsPassword` call the passphrase is generated
once before the loop and reused for every reset, so every returned
credential record carries the identical password. -/
theorem c10_one_password (env : Auth0Env) (tenant password : String) (userids : List String)
    (creds : List UserCreds) (evs : List Auth0Event)
    (h : resetStudentsPassword env tenant userids password = Except.ok (creds, evs)) :
    ∀ c ∈ creds, c.password = password :=
  resetLoop_password env tenant password userids 5 creds evs h

/-- C10 witness: both credential records of the two-student run carry the
same password "pw". -/
theorem c10_one_password_witness :
    resetStudentsPassword c9Env "tenantT" ["u1", "u2"] "pw" =
      Except.ok ([{ id := "u1", username := "alice", password := "pw" },
                  { id := "u2", username := "bob", password := "pw" }],
                 [Auth0Event.resetUser "u1", Auth0Event.pauseMs 5,
                  Auth0Event.resetUser "u2", Auth0Event.pauseMs 55]) ∧
      (∀ c ∈ [({ id := "u1", username := "alice", password := "pw" } : UserCreds),
              { id := "u2", username := "bob", password := "pw" }],
        c.password = "pw") :=
  ⟨rfl, c10_one_password c9Env "tenantT" "pw" ["u1", "u2"] _ _ rfl⟩

end Taxinomitis
